import Mathlib

/-!
Verification development for the `go-fiber-storage` repository: a shallow
embedding of the coercion engine (`result.go`) and of the backend adapters
(mysql, postgres, sqlite3, redis, memcache), with theorems settling the
specification claims about them.

Modelling conventions:
* Go dynamic values (`any`) are embedded as the inductive `GoValue`; the Go
  `nil` interface is the constructor `vnil`.
* Go `float32`/`float64` payloads are embedded as exact rationals `ℚ`; the
  claims decided here depend only on rounding direction at values where the
  IEEE representative behaves identically, never on representation error.
* Go machine integers are embedded as `Int`/`Nat`; a constructor's payload is
  assumed to lie in its Go type's range, and conversions that wrap in Go
  (e.g. `uint64` → `int`) wrap explicitly modulo `2^64`.
* `error` is embedded as `Option String` carrying the source's message; `nil`
  error is `none`.
* The JSON codec used by the relational adapters is embedded as the identity
  on decoded values (round-trip abstracted); no claim below depends on the
  byte-level encoding.
* Time is embedded as `Int` unix seconds and TTL durations as `Int` seconds,
  passed explicitly.
-/

set_option linter.unusedTactic false

namespace GoFiberStorage

/-- Embedding of the dynamic (`any`) values that can reach `storage.Result`:
the Go types enumerated by the type switches of `result.go`, plus `vnil` for
the nil interface and `vother` for any value of a type outside those switches
(hitting every switch's default branch). Byte slices carry their contents as
a `String`. -/
inductive GoValue where
  | vnil
  | vbool (b : Bool)
  | vbytes (s : String)
  | vstring (s : String)
  | vint (n : Int)
  | vint8 (n : Int)
  | vint16 (n : Int)
  | vint32 (n : Int)
  | vint64 (n : Int)
  | vuint (n : Nat)
  | vuint8 (n : Nat)
  | vuint16 (n : Nat)
  | vuint32 (n : Nat)
  | vuint64 (n : Nat)
  | vfloat32 (q : ℚ)
  | vfloat64 (q : ℚ)
  | vboolSlice (l : List Bool)
  | vintSlice (l : List Int)
  | vint8Slice (l : List Int)
  | vint16Slice (l : List Int)
  | vint32Slice (l : List Int)
  | vint64Slice (l : List Int)
  | vuintSlice (l : List Nat)
  | vuint8Slice (l : List Nat)
  | vuint16Slice (l : List Nat)
  | vuint32Slice (l : List Nat)
  | vuint64Slice (l : List Nat)
  | vfloat32Slice (l : List ℚ)
  | vfloat64Slice (l : List ℚ)
  | vstringSlice (l : List String)
  | vother
deriving DecidableEq, Repr

/-- Embedding of `storage.Result` (result.go lines 13-17): the decoded value
(`vnil` for Go nil), the error, and the missed flag. -/
structure Result where
  value : GoValue
  error : Option String
  missed : Bool
deriving DecidableEq, Repr

/-- Go `math.Round` (used by result.go for float → integer conversions):
round to nearest, ties away from zero. -/
def goMathRound (q : ℚ) : Int :=
  if 0 ≤ q then ⌊q + 1/2⌋ else -⌊-q + 1/2⌋

/-- Go's conversion of a float to an integer type (e.g. `uint64(value)` in
`Result.Uint64`, result.go lines 779-782): the fractional part is discarded,
i.e. truncation toward zero. Out-of-range conversions are
implementation-specific in Go and are embedded as the exact truncation. -/
def ratTrunc (q : ℚ) : Int :=
  if 0 ≤ q then ⌊q⌋ else ⌈q⌉

/-- Go conversion `uint64(q)` for a float `q`, as `Nat` (negative inputs are
implementation-specific in Go; embedded as 0 via `Int.toNat`). -/
def uint64OfRat (q : ℚ) : Nat :=
  (ratTrunc q).toNat

/-- Go conversion of a 64-bit unsigned value to `int` (two's-complement
wrap-around modulo `2^64`). -/
def wrapInt64 (n : Nat) : Int :=
  if n % 2^64 < 2^63 then ((n % 2^64 : Nat) : Int) else ((n % 2^64 : Nat) : Int) - 2^64

/-- Go conversion of a signed value to `uint64` (wrap modulo `2^64`). -/
def wrapUint64 (n : Int) : Nat :=
  (n % 2^64).toNat

/-- Modelled from the Go standard library: `strconv.ParseBool`. Accepts
exactly the listed literals. -/
def parseBool (s : String) : Option Bool :=
  if s = "1" ∨ s = "t" ∨ s = "T" ∨ s = "true" ∨ s = "TRUE" ∨ s = "True" then some true
  else if s = "0" ∨ s = "f" ∨ s = "F" ∨ s = "false" ∨ s = "FALSE" ∨ s = "False" then some false
  else none

/-- The decimal value of a non-empty list of ASCII digits; `none` if the list
is empty or contains a non-digit. -/
def decDigits (l : List Char) : Option Nat :=
  if l = [] then none
  else if l.all (fun c => '0' ≤ c ∧ c ≤ '9') then
    some (l.foldl (fun a c => a * 10 + (c.toNat - 48)) 0)
  else none

/-- Modelled from the Go standard library: `strconv.ParseInt(s, 10, 64)`.
Optional sign, base-10 digits, 64-bit signed range check (out-of-range is an
error in Go, embedded as `none`). -/
def parseInt64 (s : String) : Option Int :=
  match s.data with
  | [] => none
  | c :: rest =>
    let signed : Bool × List Char :=
      if c = '-' then (true, rest) else if c = '+' then (false, rest) else (false, c :: rest)
    match decDigits signed.2 with
    | none => none
    | some n =>
      let v : Int := if signed.1 then -(n : Int) else (n : Int)
      if -(2^63) ≤ v ∧ v < 2^63 then some v else none

/-- Modelled from the Go standard library: `strconv.ParseUint(s, 10, 64)`.
No sign allowed; 64-bit unsigned range check. -/
def parseUint64 (s : String) : Option Nat :=
  match decDigits s.data with
  | none => none
  | some n => if n < 2^64 then some n else none

/-- The decimal value of a digit list that is allowed to be empty (used for
the fractional part of a float literal). -/
def decDigitsOpt (l : List Char) : Option Nat :=
  if l = [] then some 0
  else decDigits l

/-- Modelled from the Go standard library: `strconv.ParseFloat` on the plain
decimal grammar `[sign] digits [. digits] [e [sign] digits]` (hex floats,
`Inf`/`NaN` and digit underscores are not representable in the rational model
and are embedded as parse failures; the final rounding of the exact decimal
value to a binary float is abstracted away — no claim depends on it). -/
def parseFloatQ (s : String) : Option ℚ :=
  match s.data with
  | [] => none
  | c :: rest =>
    let signed : Bool × List Char :=
      if c = '-' then (true, rest) else if c = '+' then (false, rest) else (false, c :: rest)
    let body := signed.2
    let mantissa := body.takeWhile (fun c => c ≠ 'e' ∧ c ≠ 'E')
    let expPart := body.dropWhile (fun c => c ≠ 'e' ∧ c ≠ 'E')
    let intPart := mantissa.takeWhile (fun c => c ≠ '.')
    let fracTail := mantissa.dropWhile (fun c => c ≠ '.')
    let fracPart := fracTail.drop 1
    if mantissa = [] ∨ (intPart = [] ∧ fracPart = []) then none
    else
      match decDigitsOpt intPart, decDigitsOpt fracPart with
      | some ip, some fp =>
        let mag : ℚ := (ip : ℚ) + (fp : ℚ) / ((10 : ℚ) ^ fracPart.length)
        let base : ℚ := if signed.1 then -mag else mag
        match expPart with
        | [] => some base
        | _ :: erest =>
          match erest with
          | [] => none
          | e1 :: etail =>
            let esigned : Bool × List Char :=
              if e1 = '-' then (true, etail) else if e1 = '+' then (false, etail) else (false, e1 :: etail)
            match decDigits esigned.2 with
            | none => none
            | some en =>
              if esigned.1 then some (base / ((10 : ℚ) ^ en)) else some (base * ((10 : ℚ) ^ en))
      | _, _ => none

/-- Decimal rendering of an integer, as Go `fmt.Sprintf` with verb `%d`. -/
def fmtD (n : Int) : String := toString n

/-- Go `fmt.Sprintf` with verb `%f` (six decimal places) on the rational
embedding of a float; the formatter's rounding mode at ties is abstracted as
ties-away-from-zero — no claim depends on it. -/
def fmtF (q : ℚ) : String :=
  let n := goMathRound (q * 1000000)
  let sign := if n < 0 then "-" else ""
  let ip := toString (n.natAbs / 1000000)
  let fracDigits := toString (n.natAbs % 1000000)
  let frac := String.mk (List.replicate (6 - fracDigits.length) '0') ++ fracDigits
  sign ++ ip ++ "." ++ frac

/-- Embedding of `Result.Bool` (result.go lines 20-75). Method names are
lowercased (`bool` for Go `Bool()`, etc.) because the capitalised Go names
collide with Lean core type names. -/
def Result.bool (r : Result) : Bool × Option String × Bool :=
  match r.error with
  | some e => (false, some e, r.missed)
  | none =>
    if r.missed then (false, none, true)
    else
      match r.value with
      | .vnil => (false, some "bool values may not be nil", false)
      | .vbool b => (b, none, false)
      | .vbytes s =>
        match parseBool s with
        | some b => (b, none, false)
        | none => (false, some "invalid bool value (from byte slice)", false)
      | .vstring s =>
        match parseBool s with
        | some b => (b, none, false)
        | none => (false, some "invalid bool value (from string)", false)
      | .vint n | .vint8 n | .vint16 n | .vint32 n | .vint64 n => (decide (n ≠ 0), none, false)
      | .vuint n | .vuint8 n | .vuint16 n | .vuint32 n | .vuint64 n => (decide (n ≠ 0), none, false)
      | .vfloat32 q | .vfloat64 q => (decide (q ≠ 0), none, false)
      | _ => (false, some "invalid bool value", false)

/-- Embedding of `Result.Bytes` (result.go lines 100-121); Go's nil slice is
`none`. `ByteSlice` (line 124) is an alias. -/
def Result.bytes (r : Result) : Option String × Option String × Bool :=
  match r.error with
  | some e => (none, some e, r.missed)
  | none =>
    if r.missed then (none, none, true)
    else
      match r.value with
      | .vnil => (none, some "byte slice values may not be nil", false)
      | .vbytes s => (some s, none, false)
      | .vstring s => (some s, none, false)
      | _ => (none, some "invalid byte slice value", false)

/-- Embedding of `Result.Float32` (result.go lines 139-197); the narrowing
from the parsed/stored value to `float32` is exact in the rational model. -/
def Result.float32 (r : Result) : ℚ × Option String × Bool :=
  match r.error with
  | some e => (0, some e, r.missed)
  | none =>
    if r.missed then (0, none, true)
    else
      match r.value with
      | .vnil => (0, some "float32 values may not be nil", false)
      | .vbool b => (if b then 1 else 0, none, false)
      | .vbytes s =>
        match parseFloatQ s with
        | some q => (q, none, false)
        | none => (0, some "invalid float32 value (from byte slice)", false)
      | .vstring s =>
        match parseFloatQ s with
        | some q => (q, none, false)
        | none => (0, some "invalid float32 value (from string)", false)
      | .vint n | .vint8 n | .vint16 n | .vint32 n | .vint64 n => ((n : ℚ), none, false)
      | .vuint n | .vuint8 n | .vuint16 n | .vuint32 n | .vuint64 n => ((n : ℚ), none, false)
      | .vfloat32 q | .vfloat64 q => (q, none, false)
      | _ => (0, some "invalid float32 value", false)

/-- Embedding of `Result.Float64` (result.go lines 222-280); `Float`
(line 134) is an alias. -/
def Result.float64 (r : Result) : ℚ × Option String × Bool :=
  match r.error with
  | some e => (0, some e, r.missed)
  | none =>
    if r.missed then (0, none, true)
    else
      match r.value with
      | .vnil => (0, some "float64 values may not be nil", false)
      | .vbool b => (if b then 1 else 0, none, false)
      | .vbytes s =>
        match parseFloatQ s with
        | some q => (q, none, false)
        | none => (0, some "invalid float64 value (from byte slice)", false)
      | .vstring s =>
        match parseFloatQ s with
        | some q => (q, none, false)
        | none => (0, some "invalid float64 value (from string)", false)
      | .vint n | .vint8 n | .vint16 n | .vint32 n | .vint64 n => ((n : ℚ), none, false)
      | .vuint n | .vuint8 n | .vuint16 n | .vuint32 n | .vuint64 n => ((n : ℚ), none, false)
      | .vfloat32 q | .vfloat64 q => (q, none, false)
      | _ => (0, some "invalid float64 value", false)

/-- Embedding of `Result.Int` (result.go lines 310-368): floats go through
`math.Round` (lines 361-364); `uint`/`uint64` sources wrap through Go's
64-bit `int` conversion. -/
def Result.int (r : Result) : Int × Option String × Bool :=
  match r.error with
  | some e => (0, some e, r.missed)
  | none =>
    if r.missed then (0, none, true)
    else
      match r.value with
      | .vnil => (0, some "int values may not be nil", false)
      | .vbool b => (if b then 1 else 0, none, false)
      | .vbytes s =>
        match parseInt64 s with
        | some n => (n, none, false)
        | none => (0, some "invalid int value (from byte slice)", false)
      | .vstring s =>
        match parseInt64 s with
        | some n => (n, none, false)
        | none => (0, some "invalid int value (from string)", false)
      | .vint n | .vint8 n | .vint16 n | .vint32 n | .vint64 n => (n, none, false)
      | .vuint8 n | .vuint16 n | .vuint32 n => ((n : Int), none, false)
      | .vuint n | .vuint64 n => (wrapInt64 n, none, false)
      | .vfloat32 q | .vfloat64 q => (goMathRound q, none, false)
      | _ => (0, some "invalid int value", false)

/-- Embedding of `Result.Int64` (result.go lines 469-527): floats go through
`math.Round` (lines 520-523). -/
def Result.int64 (r : Result) : Int × Option String × Bool :=
  match r.error with
  | some e => (0, some e, r.missed)
  | none =>
    if r.missed then (0, none, true)
    else
      match r.value with
      | .vnil => (0, some "int64 values may not be nil", false)
      | .vbool b => (if b then 1 else 0, none, false)
      | .vbytes s =>
        match parseInt64 s with
        | some n => (n, none, false)
        | none => (0, some "invalid int64 value (from byte slice)", false)
      | .vstring s =>
        match parseInt64 s with
        | some n => (n, none, false)
        | none => (0, some "invalid int64 value (from string)", false)
      | .vint n | .vint8 n | .vint16 n | .vint32 n | .vint64 n => (n, none, false)
      | .vuint8 n | .vuint16 n | .vuint32 n => ((n : Int), none, false)
      | .vuint n | .vuint64 n => (wrapInt64 n, none, false)
      | .vfloat32 q | .vfloat64 q => (goMathRound q, none, false)
      | _ => (0, some "invalid int64 value", false)

/-- Embedding of `Result.Uint64` (result.go lines 728-786): note that the
float cases (lines 779-782) are the direct Go conversion `uint64(value)` —
truncation — with no `math.Round`, unlike `Int`, `Int64` and
`Uint64Slice`. -/
def Result.uint64 (r : Result) : Nat × Option String × Bool :=
  match r.error with
  | some e => (0, some e, r.missed)
  | none =>
    if r.missed then (0, none, true)
    else
      match r.value with
      | .vnil => (0, some "uint64 values may not be nil", false)
      | .vbool b => (if b then 1 else 0, none, false)
      | .vbytes s =>
        match parseUint64 s with
        | some n => (n, none, false)
        | none => (0, some "invalid uint64 value (from byte slice)", false)
      | .vstring s =>
        match parseUint64 s with
        | some n => (n, none, false)
        | none => (0, some "invalid uint64 value (from string)", false)
      | .vint n | .vint8 n | .vint16 n | .vint32 n | .vint64 n => (wrapUint64 n, none, false)
      | .vuint n | .vuint8 n | .vuint16 n | .vuint32 n | .vuint64 n => (n, none, false)
      | .vfloat32 q | .vfloat64 q => (uint64OfRat q, none, false)
      | _ => (0, some "invalid uint64 value", false)

/-- Embedding of `Result.String` (result.go lines 643-693); `Text` (line 718)
is an alias. -/
def Result.string (r : Result) : String × Option String × Bool :=
  match r.error with
  | some e => ("", some e, r.missed)
  | none =>
    if r.missed then ("", none, true)
    else
      match r.value with
      | .vnil => ("", some "string values may not be nil", false)
      | .vbool b => (if b then "true" else "false", none, false)
      | .vbytes s => (s, none, false)
      | .vstring s => (s, none, false)
      | .vint n | .vint8 n | .vint16 n | .vint32 n | .vint64 n => (fmtD n, none, false)
      | .vuint n | .vuint8 n | .vuint16 n | .vuint32 n | .vuint64 n => (fmtD (n : Int), none, false)
      | .vfloat32 q | .vfloat64 q => (fmtF q, none, false)
      | _ => ("", some "invalid string value", false)

/-- Embedding of `Result.BoolSlice` (result.go lines 78-97): only a `[]bool`
source is accepted. -/
def Result.boolSlice (r : Result) : Option (List Bool) × Option String × Bool :=
  match r.error with
  | some e => (none, some e, r.missed)
  | none =>
    if r.missed then (none, none, true)
    else
      match r.value with
      | .vnil => (none, some "bool slice values may not be nil", false)
      | .vboolSlice l => (some l, none, false)
      | _ => (none, some "invalid bool slice value", false)

/-- Embedding of `Result.Float32Slice` (result.go lines 200-219). -/
def Result.float32Slice (r : Result) : Option (List ℚ) × Option String × Bool :=
  match r.error with
  | some e => (none, some e, r.missed)
  | none =>
    if r.missed then (none, none, true)
    else
      match r.value with
      | .vnil => (none, some "float32 slice values may not be nil", false)
      | .vfloat32Slice l => (some l, none, false)
      | _ => (none, some "invalid float32 slice value", false)

/-- Embedding of `Result.Float64Slice` (result.go lines 283-302). -/
def Result.float64Slice (r : Result) : Option (List ℚ) × Option String × Bool :=
  match r.error with
  | some e => (none, some e, r.missed)
  | none =>
    if r.missed then (none, none, true)
    else
      match r.value with
      | .vnil => (none, some "float64 slice values may not be nil", false)
      | .vfloat64Slice l => (some l, none, false)
      | _ => (none, some "invalid float64 slice value", false)

/-- Embedding of `Result.IntSlice` (result.go lines 371-466): every numeric
slice converts element-wise; float elements go through `math.Round`
(lines 451-462). -/
def Result.intSlice (r : Result) : Option (List Int) × Option String × Bool :=
  match r.error with
  | some e => (none, some e, r.missed)
  | none =>
    if r.missed then (none, none, true)
    else
      match r.value with
      | .vnil => (none, some "int slice values may not be nil", false)
      | .vboolSlice l => (some (l.map (fun b => if b then 1 else 0)), none, false)
      | .vintSlice l | .vint8Slice l | .vint16Slice l | .vint32Slice l | .vint64Slice l =>
        (some l, none, false)
      | .vuint8Slice l | .vuint16Slice l | .vuint32Slice l =>
        (some (l.map (fun v => (v : Int))), none, false)
      | .vuintSlice l | .vuint64Slice l => (some (l.map wrapInt64), none, false)
      | .vfloat32Slice l | .vfloat64Slice l => (some (l.map goMathRound), none, false)
      | _ => (none, some "invalid int slice value", false)

/-- Embedding of `Result.Int64Slice` (result.go lines 530-625); float elements
go through `math.Round` (lines 610-621). -/
def Result.int64Slice (r : Result) : Option (List Int) × Option String × Bool :=
  match r.error with
  | some e => (none, some e, r.missed)
  | none =>
    if r.missed then (none, none, true)
    else
      match r.value with
      | .vnil => (none, some "int64 slice values may not be nil", false)
      | .vboolSlice l => (some (l.map (fun b => if b then 1 else 0)), none, false)
      | .vintSlice l | .vint8Slice l | .vint16Slice l | .vint32Slice l | .vint64Slice l =>
        (some l, none, false)
      | .vuint8Slice l | .vuint16Slice l | .vuint32Slice l =>
        (some (l.map (fun v => (v : Int))), none, false)
      | .vuintSlice l | .vuint64Slice l => (some (l.map wrapInt64), none, false)
      | .vfloat32Slice l | .vfloat64Slice l => (some (l.map goMathRound), none, false)
      | _ => (none, some "invalid int64 slice value", false)

/-- Embedding of `Result.Uint64Slice` (result.go lines 789-884); float
elements go through `math.Round` before the `uint64` conversion
(lines 869-880) — unlike the scalar `Uint64`. -/
def Result.uint64Slice (r : Result) : Option (List Nat) × Option String × Bool :=
  match r.error with
  | some e => (none, some e, r.missed)
  | none =>
    if r.missed then (none, none, true)
    else
      match r.value with
      | .vnil => (none, some "uint64 slice values may not be nil", false)
      | .vboolSlice l => (some (l.map (fun b => if b then 1 else 0)), none, false)
      | .vintSlice l | .vint8Slice l | .vint16Slice l | .vint32Slice l | .vint64Slice l =>
        (some (l.map wrapUint64), none, false)
      | .vuintSlice l | .vuint8Slice l | .vuint16Slice l | .vuint32Slice l | .vuint64Slice l =>
        (some l, none, false)
      | .vfloat32Slice l | .vfloat64Slice l =>
        (some (l.map (fun q => (goMathRound q).toNat)), none, false)
      | _ => (none, some "invalid uint64 slice value", false)

/-- Embedding of `Result.StringSlice` (result.go lines 696-715); `TextSlice`
(line 723) is an alias. -/
def Result.stringSlice (r : Result) : Option (List String) × Option String × Bool :=
  match r.error with
  | some e => (none, some e, r.missed)
  | none =>
    if r.missed then (none, none, true)
    else
      match r.value with
      | .vnil => (none, some "string slice values may not be nil", false)
      | .vstringSlice l => (some l, none, false)
      | _ => (none, some "invalid string slice value", false)

/-- The value of a hexadecimal digit, as in the UUID library's parse. -/
def hexVal (c : Char) : Option Nat :=
  if '0' ≤ c ∧ c ≤ '9' then some (c.toNat - 48)
  else if 'a' ≤ c ∧ c ≤ 'f' then some (c.toNat - 87)
  else if 'A' ≤ c ∧ c ≤ 'F' then some (c.toNat - 55)
  else none

/-- Decode a list of hex digits two at a time into bytes. -/
def hexPairs : List Char → Option (List Nat)
  | [] => some []
  | [_] => none
  | a :: b :: rest =>
    match hexVal a, hexVal b, hexPairs rest with
    | some x, some y, some tail => some ((x * 16 + y) :: tail)
    | _, _, _ => none

/-- Modelled from the `google/uuid` library: parse the canonical 36-character
`8-4-4-4-12` form into 16 bytes. -/
def uuidFrom36 (l : List Char) : Option (List Nat) :=
  if l.length = 36 ∧ l.get? 8 = some '-' ∧ l.get? 13 = some '-' ∧
      l.get? 18 = some '-' ∧ l.get? 23 = some '-' then
    hexPairs (l.take 8 ++ ((l.drop 9).take 4) ++ ((l.drop 14).take 4) ++
      ((l.drop 19).take 4) ++ l.drop 24)
  else none

/-- Modelled from the `google/uuid` library: `uuid.Parse`, accepting the
canonical form, the `urn:uuid:` form, the braced form and the raw
32-hex-digit form. -/
def uuidParse (s : String) : Option (List Nat) :=
  let l := s.data
  if l.length = 36 then uuidFrom36 l
  else if l.length = 45 ∧ (l.take 9).map Char.toLower = "urn:uuid:".data then
    uuidFrom36 (l.drop 9)
  else if l.length = 38 ∧ l.get? 0 = some '\x7b' ∧ l.get? 37 = some '\x7d' then
    uuidFrom36 ((l.drop 1).take 36)
  else if l.length = 32 then hexPairs l
  else none

/-- `uuid.Nil`: sixteen zero bytes. -/
def uuidNil : List Nat := List.replicate 16 0

/-- Embedding of `Result.UUID` (result.go lines 887-916); a UUID is its list
of 16 bytes. -/
def Result.uuid (r : Result) : List Nat × Option String × Bool :=
  match r.error with
  | some e => (uuidNil, some e, r.missed)
  | none =>
    if r.missed then (uuidNil, none, true)
    else
      match r.value with
      | .vnil => (uuidNil, some "UUID values may not be nil", false)
      | .vbytes s =>
        match uuidParse s with
        | some token => (token, none, false)
        | none => (uuidNil, some "invalid UUID value (from byte slice)", false)
      | .vstring s =>
        match uuidParse s with
        | some token => (token, none, false)
        | none => (uuidNil, some "invalid UUID value (from string)", false)
      | _ => (uuidNil, some "invalid UUID value", false)

/-- A row of a relational adapter's table: the `key`, `namespace`, `value`
and `expiry` columns (`namespace` is a Lean keyword, so the field is named
`nsp`). The value column holds the codec-serialized payload, embedded as the
decoded `GoValue` itself (identity codec). -/
structure Row where
  key : String
  nsp : String
  value : GoValue
  expiry : Int
deriving DecidableEq, Repr

/-- The error `sqlx` returns when a point `SELECT` matches no row (the string
also appears, unused, as `noRows` in mysql.go line 117). -/
def errNoRows : String := "sql: no rows in result set"

/-- The validation error for empty keys shared by all adapters. -/
def errZeroKey : String := "storage keys cannot be zero length"

/-- Embedding of mysql `Storage.Set` (mysql.go lines 141-164) over the table
state. `exp` is the first variadic TTL argument in seconds (0 when absent);
`expSeconds` is 0 for a zero TTL, otherwise `now + exp` (`time.Now().Add(exp)
.Unix()`). The engine executes `sqlInsert` (line 102): an upsert on the
primary key `(namespace, key)` (schema lines 40-49) updating `value` and
`expiry`. JSON marshalling is the identity codec. -/
def mysqlSet (tbl : List Row) (ns k : String) (v : GoValue) (now exp : Int) :
    Option String × List Row :=
  if k.length ≤ 0 then (some errZeroKey, tbl)
  else
    let expSeconds : Int := if exp ≠ 0 then now + exp else 0
    if tbl.any (fun r => r.key == k && r.nsp == ns) then
      (none, tbl.map (fun r =>
        if r.key == k && r.nsp == ns then { r with value := v, expiry := expSeconds } else r))
    else (none, tbl ++ [⟨k, ns, v, expSeconds⟩])

/-- Embedding of mysql `Storage.Get` (mysql.go lines 120-138): `sqlSelect`
filters `key = ? AND namespace = ?`; when the select matches no row, sqlx's
`Get` returns `sql.ErrNoRows`, which the code returns as the `Result`'s error
(line 127) — it is not translated into a miss. A found row is a miss when its
key is empty or its expiry is nonzero and has passed (lines 130-132). -/
def mysqlGet (tbl : List Row) (ns k : String) (now : Int) : Result :=
  if k.length ≤ 0 then ⟨.vnil, some errZeroKey, false⟩
  else
    match tbl.find? (fun r => r.key == k && r.nsp == ns) with
    | none => ⟨.vnil, some errNoRows, false⟩
    | some r =>
      if r.key.length = 0 ∨ (r.expiry ≠ 0 ∧ r.expiry ≤ now) then ⟨.vnil, none, true⟩
      else ⟨r.value, none, false⟩

/-- Embedding of mysql `Storage.Delete` (mysql.go lines 167-187): all keys
are validated non-empty before the single `DELETE ... WHERE namespace = ?
AND key IN (?)` runs; a validation failure leaves the table untouched. The
engine's `Exec` itself is pure in the model. -/
def mysqlDelete (tbl : List Row) (ns : String) (keys : List String) :
    Option String × List Row :=
  if keys.length ≤ 0 then (some "at least one key is required for Delete", tbl)
  else if keys.any (fun v => v.length = 0) then
    (some "storage keys cannot be zero length (no keys deleted)", tbl)
  else (none, tbl.filter (fun r => !(r.nsp == ns && keys.contains r.key)))

/-- Embedding of mysql `Storage.Reset` (mysql.go lines 190-194):
`DELETE ... WHERE namespace = ?`. -/
def mysqlReset (tbl : List Row) (ns : String) : List Row :=
  tbl.filter (fun r => !(r.nsp == ns))

/-- Embedding of mysql `Storage.gc` (mysql.go lines 224-226):
`DELETE ... WHERE namespace = ? AND expiry <= ? AND expiry != 0`. -/
def mysqlGC (tbl : List Row) (ns : String) (now : Int) : List Row :=
  tbl.filter (fun r => !(r.nsp == ns && decide (r.expiry ≤ now) && r.expiry != 0))

/-- Embedding of postgres `Storage.Set` (postgres.go lines 141-159). The
schema (lines 40-45) declares `key` alone as the primary key; `sqlInsert`
(line 101) is `INSERT ... ON CONFLICT (key) DO UPDATE SET value = $5,
expiry = $6`, so a conflicting insert updates the existing row regardless of
its `namespace` column, which stays unchanged. ($5 is the raw `val` argument
where the insert branch uses the marshalled bytes; under the identity codec
both are `v`.) -/
def pgSet (tbl : List Row) (ns k : String) (v : GoValue) (now exp : Int) :
    Option String × List Row :=
  if k.length ≤ 0 then (some errZeroKey, tbl)
  else
    let expSeconds : Int := if exp ≠ 0 then now + exp else 0
    if tbl.any (fun r => r.key == k) then
      (none, tbl.map (fun r =>
        if r.key == k then { r with value := v, expiry := expSeconds } else r))
    else (none, tbl ++ [⟨k, ns, v, expSeconds⟩])

/-- Embedding of postgres `Storage.Get` (postgres.go lines 116-138): this
variant returns a plain `(value, error)` pair; no matching row and an
expired row both return `(nil, nil)`. -/
def pgGet (tbl : List Row) (ns k : String) (now : Int) : GoValue × Option String :=
  if k.length ≤ 0 then (.vnil, some errZeroKey)
  else
    match tbl.find? (fun r => r.key == k && r.nsp == ns) with
    | none => (.vnil, none)
    | some r =>
      if r.expiry ≠ 0 ∧ r.expiry ≤ now then (.vnil, none) else (r.value, none)

/-- Embedding of postgres `Storage.Delete` (postgres.go lines 162-170):
single key, `DELETE ... WHERE key = $1 AND namespace = $2`. -/
def pgDelete (tbl : List Row) (ns k : String) : Option String × List Row :=
  if k.length ≤ 0 then (some errZeroKey, tbl)
  else (none, tbl.filter (fun r => !(r.key == k && r.nsp == ns)))

/-- Embedding of postgres `Storage.Reset` (postgres.go lines 173-177). -/
def pgReset (tbl : List Row) (ns : String) : List Row :=
  tbl.filter (fun r => !(r.nsp == ns))

/-- Embedding of postgres `Storage.gc` (postgres.go lines 209-211). -/
def pgGC (tbl : List Row) (ns : String) (now : Int) : List Row :=
  tbl.filter (fun r => !(r.nsp == ns && decide (r.expiry ≤ now) && r.expiry != 0))

/-- Embedding of sqlite3 `Storage.Set` of the namespaced variant (sqlite3.go
lines 329-352). The schema (lines 238-243) declares `key` alone as the
primary key and `sqlInsert` (line 296) is a plain `INSERT` with no conflict
clause, so inserting an existing key — in any namespace — fails with the
engine's UNIQUE-constraint error, which `Set` returns. -/
def sqliteSet (tbl : List Row) (ns k : String) (v : GoValue) (now exp : Int) :
    Option String × List Row :=
  if k.length ≤ 0 then (some errZeroKey, tbl)
  else
    let expSeconds : Int := if exp ≠ 0 then now + exp else 0
    if tbl.any (fun r => r.key == k) then
      (some "UNIQUE constraint failed: key", tbl)
    else (none, tbl ++ [⟨k, ns, v, expSeconds⟩])

/-- Embedding of sqlite3 `Storage.Get` of the namespaced variant (sqlite3.go
lines 309-326): structurally identical to the mysql `Get`, including
returning sqlx's `sql.ErrNoRows` as the error when no row matches. -/
def sqliteGet (tbl : List Row) (ns k : String) (now : Int) : Result :=
  if k.length ≤ 0 then ⟨.vnil, some errZeroKey, false⟩
  else
    match tbl.find? (fun r => r.key == k && r.nsp == ns) with
    | none => ⟨.vnil, some errNoRows, false⟩
    | some r =>
      if r.key.length = 0 ∨ (r.expiry ≠ 0 ∧ r.expiry ≤ now) then ⟨.vnil, none, true⟩
      else ⟨r.value, none, false⟩

/-- Embedding of sqlite3 `Storage.Delete` (sqlite3.go lines 355-375), same
shape as the mysql variant. -/
def sqliteDelete (tbl : List Row) (ns : String) (keys : List String) :
    Option String × List Row :=
  if keys.length ≤ 0 then (some "at least one key is required for Delete", tbl)
  else if keys.any (fun v => v.length = 0) then
    (some "storage keys cannot be zero length (no keys deleted)", tbl)
  else (none, tbl.filter (fun r => !(r.nsp == ns && keys.contains r.key)))

/-- Embedding of sqlite3 `Storage.Reset` (sqlite3.go lines 378-382). -/
def sqliteReset (tbl : List Row) (ns : String) : List Row :=
  tbl.filter (fun r => !(r.nsp == ns))

/-- Embedding of sqlite3 `Storage.gc` (sqlite3.go lines 407-409). -/
def sqliteGC (tbl : List Row) (ns : String) (now : Int) : List Row :=
  tbl.filter (fun r => !(r.nsp == ns && decide (r.expiry ≤ now) && r.expiry != 0))

/-- Embedding of the redis adapter's namespace normalization (redis.go
lines 42-44): a non-empty configured namespace has its trailing characters
from the cutset `/\ :_-` trimmed (`strings.TrimRight`) and a single `:`
appended; an empty namespace stays empty. -/
def redisNamespace (ns : String) : String :=
  if 0 < ns.length then
    String.mk ((ns.data.reverse.dropWhile
      (fun c => c ∈ ['/', '\\', ' ', ':', '_', '-'])).reverse) ++ ":"
  else ns

/-- `p` is a prefix of `s`, character by character. Used to state which
physical keys belong to a namespace; the engine-side pattern match itself is
`globMatch` below. -/
def strLeads : List Char → List Char → Bool
  | [], _ => true
  | _ :: _, [] => false
  | a :: resta, b :: restb => a == b && strLeads resta restb

/-- A pattern remnant consisting only of `*` wildcards (the trailing-star
skip of redis `stringmatchlen` once the string is exhausted). -/
def allStars (l : List Char) : Bool := l.all (fun c => c == '*')

/-- Modelled from redis `util.c stringmatchlen`, the `[` character-class
loop: given the candidate character and the pattern after the optional `^`,
returns whether the class matched and how many pattern characters the loop
consumed (including the closing `]` when present). An escaped character
counts two pattern characters, a range `a-b` three (ranges compare code
points, as the C code compares bytes); an unterminated class consumes the
rest of the pattern. -/
def globClass (c : Char) : List Char → Bool → Bool × Nat
  | [], m => (m, 0)
  | '\\' :: x :: rest, m =>
      let r := globClass c rest (m || x == c)
      (r.1, r.2 + 2)
  | ']' :: _, m => (m, 1)
  | a :: '-' :: b :: rest, m =>
      let lo := if a ≤ b then a else b
      let hi := if a ≤ b then b else a
      let r := globClass c rest (m || (decide (lo ≤ c) && decide (c ≤ hi)))
      (r.1, r.2 + 3)
  | a :: rest, m =>
      let r := globClass c rest (m || a == c)
      (r.1, r.2 + 1)

/-- Modelled from redis `util.c stringmatchlen` with `nocase = 0` (the
matcher behind `SCAN ... MATCH`): `*` matches any sequence (consecutive
stars collapse; a pattern ending in `*` accepts the rest), `?` any single
character, `[...]` a character class with optional `^` negation and `a-b`
ranges, `\` escapes the next pattern character; other characters match
literally. Mirrors the C control flow, including the quirk that a non-empty
pattern never matches the empty string unless the main loop has consumed at
least one character (so `*` alone does not match `""`), and the
trailing-star skip once the string is exhausted. -/
def globMatch : List Char → List Char → Bool
  | [], [] => true
  | [], _ :: _ => false
  | _ :: _, [] => false
  | a :: ps, c :: srest =>
    if a = '*' then
      if ps.head? = some '*' then globMatch ps (c :: srest)
      else if ps = [] then true
      else globMatch ps (c :: srest) || globMatch (a :: ps) srest
    else if a = '?' then
      if srest = [] then allStars ps else globMatch ps srest
    else if a = '[' then
      let neg : Bool := ps.head? = some '^'
      let body := if neg then ps.tail else ps
      let r := globClass c body false
      let m := if neg then !r.1 else r.1
      if m then
        (if srest = [] then allStars (body.drop r.2) else globMatch (body.drop r.2) srest)
      else false
    else if a = '\\' ∧ ps ≠ [] then
      if ps.head? = some c then
        (if srest = [] then allStars ps.tail else globMatch ps.tail srest)
      else false
    else
      if a = c then (if srest = [] then allStars ps else globMatch ps srest) else false
termination_by p s => (p.length, s.length)
decreasing_by
  all_goals simp_wf
  all_goals try omega
  all_goals apply Prod.Lex.left
  all_goals split <;> (try simp only [List.length_tail]) <;> omega

/-- Embedding of redis `Storage.Get` (redis.go lines 54-67): the physical key
is `namespace + key`; `redis.Nil` becomes a miss. The engine state is an
association list from physical key to stored value (per-key TTL enforcement
is delegated to the engine and not modelled; no claim below depends on
it). -/
def redisGet (p : String) (db : List (String × GoValue)) (k : String) : Result :=
  if k.length ≤ 0 then ⟨.vnil, some errZeroKey, false⟩
  else
    match db.find? (fun e => e.1 == p ++ k) with
    | none => ⟨.vnil, none, true⟩
    | some e => ⟨e.2, none, false⟩

/-- Embedding of redis `Storage.Set` (redis.go lines 70-83): `SET` on the
physical key `namespace + key` stores/overwrites the value. -/
def redisSet (p : String) (db : List (String × GoValue)) (k : String) (v : GoValue) :
    Option String × List (String × GoValue) :=
  if k.length ≤ 0 then (some errZeroKey, db)
  else
    let pk := p ++ k
    if db.any (fun e => e.1 == pk) then
      (none, db.map (fun e => if e.1 == pk then (pk, v) else e))
    else (none, db ++ [(pk, v)])

/-- Embedding of the loop of redis `Storage.Delete` (redis.go lines 91-97):
walks the caller's key slice in order, rejecting an empty key, and replaces
`keys[k]` by its namespace-prefixed form in place; on a validation failure
the keys before the offending index have already been rewritten. Returns the
error and the final contents of the caller's slice. -/
def redisPrefixKeys (p : String) : List String → Option String × List String
  | [] => (none, [])
  | k :: ks =>
    if k.length = 0 then
      (some "storage keys cannot be zero length (no keys deleted)", k :: ks)
    else
      let rest := redisPrefixKeys p ks
      (rest.1, (p ++ k) :: rest.2)

/-- Embedding of redis `Storage.Delete` (redis.go lines 86-100): validates
and prefixes the keys, then issues one `DEL` for all of them; nothing is
deleted when validation fails. Returns (error, engine state, final contents
of the caller's slice). -/
def redisDelete (p : String) (db : List (String × GoValue)) (keys : List String) :
    Option String × List (String × GoValue) × List String :=
  if keys.length ≤ 0 then (some "at least one key is required for Delete", db, keys)
  else
    match redisPrefixKeys p keys with
    | (some e, ks) => (some e, db, ks)
    | (none, ks) => (none, db.filter (fun entry => !(ks.contains entry.1)), ks)

/-- Embedding of redis `Storage.Reset` (redis.go lines 103-119): an adapter
whose stored namespace is empty issues `FlushDB`, clearing the whole engine;
otherwise every physical key matching the glob pattern `namespace + "*"`
(`SCAN ... MATCH`, i.e. `globMatch`) is scanned and deleted — so a namespace
containing glob metacharacters can match, and delete, keys outside its own
literal prefix. -/
def redisReset (p : String) (db : List (String × GoValue)) : List (String × GoValue) :=
  if p == "" then []
  else db.filter (fun e => !(globMatch (p ++ "*").data e.1.data))

/-- Embedding of memcache `Storage.Delete` (unnamed part_000 lines 100-116):
after validation the loop calls the engine's delete for each key and
discards every returned error (`s.db.Delete(v)` with no assignment), always
returning nil — the source's own TODO comment flags this. The engine's
per-key outcome is the oracle `engineDel`. -/
def memcacheDelete (engineDel : String → Option String) (keys : List String) :
    Option String :=
  if keys.length ≤ 0 then some "at least one key is required for Delete"
  else if keys.any (fun v => v.length = 0) then
    some "storage keys cannot be zero length (no keys deleted)"
  else
    let _ := keys.map engineDel
    none

/-- Rounding characterization: `goMathRound` is a round-to-nearest map —
its result is within one half of its argument. -/
theorem goMathRound_near (q : ℚ) : |(goMathRound q : ℚ) - q| ≤ 1/2 := by
  unfold goMathRound
  split
  · rename_i h
    rw [abs_le]
    have h1 := Int.lt_floor_add_one (q + 1/2)
    have h2 := Int.floor_le (q + 1/2)
    constructor <;> (try push_cast) <;> linarith
  · rename_i h
    rw [abs_le]
    have h1 := Int.lt_floor_add_one (-q + 1/2)
    have h2 := Int.floor_le (-q + 1/2)
    constructor <;> (try push_cast) <;> linarith

/-- Truncation characterization: `ratTrunc` truncates toward zero — the
result never exceeds the argument in magnitude and drops less than 1. -/
theorem ratTrunc_toward_zero (q : ℚ) : |(ratTrunc q : ℚ)| ≤ |q| ∧ |q - (ratTrunc q : ℚ)| < 1 := by
  unfold ratTrunc
  split
  · rename_i h
    have h1 := Int.floor_le q
    have h2 := Int.lt_floor_add_one q
    have h0 : (0:ℚ) ≤ (⌊q⌋ : ℚ) := by exact_mod_cast Int.floor_nonneg.mpr h
    rw [abs_of_nonneg h0, abs_of_nonneg h, abs_of_nonneg (by linarith)]
    constructor <;> (try push_cast) <;> linarith
  · rename_i h
    push_neg at h
    have h1 := Int.le_ceil q
    have h2 := Int.ceil_lt_add_one q
    have h0 : (⌈q⌉ : ℚ) ≤ 0 := by
      have hc : ⌈q⌉ ≤ (0 : ℤ) := Int.ceil_le.mpr (by exact_mod_cast h.le)
      exact_mod_cast hc
    rw [abs_of_nonpos h0, abs_of_nonpos h.le, abs_of_nonpos (by linarith)]
    constructor <;> (try push_cast) <;> linarith

/-- Restricting a list to a superset predicate of the search predicate does
not change the result of `find?`. -/
theorem find_eq_of_imp {α : Type} {p q : α → Bool} (l : List α)
    (h : ∀ a, p a = true → q a = true) : (l.filter q).find? p = l.find? p := by
  induction l with
  | nil => rfl
  | cons a l ih =>
    by_cases hq : q a = true
    · by_cases hp : p a = true
      · simp [List.filter_cons, List.find?_cons, hq, hp]
      · simp [List.filter_cons, List.find?_cons, hq, hp, ih]
    · have hp : ¬ p a = true := fun hpa => hq (h a hpa)
      simp [List.filter_cons, List.find?_cons, hq, hp, ih]

/-- Filtering by `f` preserves the sublist selected by `g` whenever `g`
implies `f`. -/
theorem filter_preserved {α : Type} {f g : α → Bool} (l : List α)
    (h : ∀ a, g a = true → f a = true) : (l.filter f).filter g = l.filter g := by
  induction l with
  | nil => rfl
  | cons a l ih =>
    by_cases hf : f a = true
    · by_cases hg : g a = true
      · simp [List.filter_cons, hf, hg, ih]
      · simp [List.filter_cons, hf, hg, ih]
    · have hg : ¬ g a = true := fun hga => hf (h a hga)
      simp [List.filter_cons, hf, hg, ih]

/-- `strLeads` holds of a list against itself-plus-anything. -/
theorem strLeads_append (p x : List Char) : strLeads p (p ++ x) = true := by
  induction p with
  | nil => rfl
  | cons a resta ih => simp [strLeads, ih]

/-- `strLeads p l` holds exactly when `l` extends `p`. -/
theorem strLeads_iff (p l : List Char) : strLeads p l = true ↔ ∃ r, l = p ++ r := by
  induction p generalizing l with
  | nil => simp [strLeads]
  | cons a resta ih =>
    cases l with
    | nil => simp [strLeads]
    | cons b restb =>
      simp [strLeads, ih]
      intro x h
      exact eq_comm

/-- Two lists that both lead the same list are comparable under
`strLeads`. -/
theorem strLeads_comparable {p1 p2 l : List Char} (h1 : strLeads p1 l = true)
    (h2 : strLeads p2 l = true) : strLeads p1 p2 = true ∨ strLeads p2 p1 = true := by
  induction p1 generalizing p2 l with
  | nil => left; rfl
  | cons a resta ih =>
    cases p2 with
    | nil => right; rfl
    | cons b restb =>
      cases l with
      | nil => simp [strLeads] at h1
      | cons c restc =>
        simp [strLeads] at h1 h2
        rcases h1 with ⟨rfl, h1⟩
        rcases h2 with ⟨rfl, h2⟩
        rcases ih h1 h2 with h | h
        · left; simp [strLeads, h]
        · right; simp [strLeads, h]

/-- On a pattern `P ++ "*"` whose stem `P` contains no glob metacharacter
(`*`, `?`, `[`, `\`), the redis matcher agrees with the literal prefix test
against any non-empty string. -/
theorem globMatch_literal (P : List Char)
    (hP : ∀ c ∈ P, c ≠ '*' ∧ c ≠ '?' ∧ c ≠ '[' ∧ c ≠ '\\') :
    ∀ s : List Char, s ≠ [] → globMatch (P ++ ['*']) s = strLeads P s := by
  induction P with
  | nil =>
    intro s hs
    cases s with
    | nil => exact absurd rfl hs
    | cons c srest => simp [globMatch, strLeads]
  | cons a P2 ih =>
    intro s hs
    cases s with
    | nil => exact absurd rfl hs
    | cons c srest =>
      obtain ⟨ha1, ha2, ha3, ha4⟩ := hP a (by simp)
      by_cases hac : a = c
      · subst hac
        cases srest with
        | nil =>
          simp [globMatch, strLeads, ha1, ha2, ha3, ha4]
          cases P2 with
          | nil => simp [allStars, strLeads]
          | cons b P3 =>
            have hb := (hP b (by simp)).1
            simp [allStars, strLeads, hb]
        | cons c2 srest2 =>
          simp [globMatch, strLeads, ha1, ha2, ha3, ha4]
          exact ih (fun x hx => hP x (by simp [hx])) _ (by simp)
      · simp [globMatch, strLeads, ha1, ha2, ha3, ha4, hac]

/-- Behaviour checks of the glob matcher against redis `stringmatchlen`:
star spans, the single-character wildcard, classes with negation and ranges,
escapes — and the divergence that forces the glob-literal condition below:
the namespace "a*" normalizes to "a*:", whose scan pattern matches the key
"ab:k" of the distinct, mutually prefix-free namespace "ab", so that
adapter's Reset deletes the other namespace's entry. -/
theorem globMatch_checks :
    globMatch ("a*:" ++ "*").data "ab:k".data = true ∧
    strLeads "a*:".data "ab:k".data = false ∧
    redisNamespace "a*" = "a*:" ∧
    redisReset (redisNamespace "a*") [("ab:k", GoValue.vstring "v")] = [] ∧
    globMatch "ab:*".data "ab:k".data = true ∧
    globMatch "ab:*".data "ac:k".data = false ∧
    globMatch "a?c".data "abc".data = true ∧
    globMatch "a[bc]d".data "acd".data = true ∧
    globMatch "a[^bc]d".data "abd".data = false ∧
    globMatch "a[a-c]d".data "abd".data = true ∧
    globMatch "a\\*d".data "a*d".data = true ∧
    globMatch "a\\*d".data "abd".data = false := by
  have hns : redisNamespace "a*" = "a*:" := by decide
  refine ⟨?_, by decide, hns, ?_, ?_, ?_, ?_, ?_, ?_, ?_, ?_, ?_⟩ <;>
    simp [hns, redisReset, globMatch, allStars, globClass, List.filter]

/-- The redis `Delete` loop, when every key passes validation, rewrites the
whole caller slice to the prefixed keys and reports no error. -/
theorem redisPrefixKeys_ok (p : String) (keys : List String) (h : ∀ k ∈ keys, k ≠ "") :
    redisPrefixKeys p keys = (none, keys.map (fun k => p ++ k)) := by
  induction keys with
  | nil => rfl
  | cons k ks ih =>
    have hk : k ≠ "" := h k (by simp)
    have hlen : ¬ k.length = 0 := by
      intro h0
      apply hk
      cases k with
      | mk data =>
        cases data with
        | nil => rfl
        | cons c cs => simp [String.length] at h0
    simp [redisPrefixKeys, hlen, ih (fun a ha => h a (by simp [ha]))]

/-- C1. Claim: for every relational adapter, entries are uniquely addressed
by `(namespace, key)` and a Set through one namespace never creates,
replaces, or conflicts with another namespace's entry for that key. The
postgres adapter violates this: its schema keys rows by `key` alone and its
upsert conflicts on `key` alone, so this theorem evaluates the embedded
postgres code at the failing input — adapter `b`'s Set of key `k` updates in
place the row belonging to namespace `a` (the row keeps namespace `a` but
receives `b`'s value), after which `b`'s own Get misses and `a`'s Get
returns `b`'s value. -/
theorem C1_postgres_cross_namespace_set_clobbers :
    pgSet [] "a" "k" (.vstring "va") 0 0 = (none, [⟨"k", "a", .vstring "va", 0⟩]) ∧
    pgSet [⟨"k", "a", .vstring "va", 0⟩] "b" "k" (.vstring "vb") 0 0
      = (none, [⟨"k", "a", .vstring "vb", 0⟩]) ∧
    pgGet [⟨"k", "a", .vstring "vb", 0⟩] "b" "k" 0 = (.vnil, none) ∧
    pgGet [⟨"k", "a", .vstring "vb", 0⟩] "a" "k" 0 = (.vstring "vb", none) := by
  decide

/-- C2. Claim: for every backend adapter a second Set of the same key
returns no error and overwrites. The sqlite3 adapter violates this: its
insert statement has no conflict clause and its schema keys rows by `key`
alone, so this theorem evaluates the embedded sqlite3 code at the failing
input — the first Set succeeds and the second Set of the same
`(namespace, key)` returns the engine's UNIQUE-constraint error, leaving the
first value in place. -/
theorem C2_sqlite3_second_set_fails :
    sqliteSet [] "n" "k" (.vstring "v1") 10 0 = (none, [⟨"k", "n", .vstring "v1", 0⟩]) ∧
    sqliteSet [⟨"k", "n", .vstring "v1", 0⟩] "n" "k" (.vstring "v2") 20 0
      = (some "UNIQUE constraint failed: key", [⟨"k", "n", .vstring "v1", 0⟩]) := by
  decide

/-- C4. Claim: Set stores `now + ttl` (or the sentinel 0), and Get misses
exactly on an expired physical entry, indistinguishably from a never-written
key. The expiry arithmetic and the expired-entry miss hold (first four
conjuncts, evaluated on the embedded mysql code), but the final clause fails:
the mysql Get returns sqlx's `sql.ErrNoRows` as an error — not a miss — for
a key that never existed, which is distinguishable from the expired-entry
miss (last two conjuncts evaluate the code at the failing input). -/
theorem C4_mysql_absent_key_distinguishable_from_expired :
    mysqlSet [] "s" "k" (.vstring "v") 100 7 = (none, [⟨"k", "s", .vstring "v", 107⟩]) ∧
    mysqlSet [] "s" "k" (.vstring "v") 100 0 = (none, [⟨"k", "s", .vstring "v", 0⟩]) ∧
    mysqlGet [⟨"k", "s", .vstring "v", 107⟩] "s" "k" 107 = ⟨.vnil, none, true⟩ ∧
    mysqlGet [⟨"k", "s", .vstring "v", 107⟩] "s" "k" 106 = ⟨.vstring "v", none, false⟩ ∧
    mysqlGet [] "s" "k" 107 = ⟨.vnil, some errNoRows, false⟩ ∧
    (⟨.vnil, some errNoRows, false⟩ : Result) ≠ ⟨.vnil, none, true⟩ := by
  decide

/-- C9. Claim: every adapter surfaces per-call engine failures to the
caller. The memcache Delete violates this (its own TODO comment admits it):
the loop discards each engine delete's error, so the adapter returns nil
even when the engine fails every key — this theorem evaluates the embedded
memcache Delete with an engine that fails the only key. -/
theorem C9_memcache_delete_swallows_engine_error :
    memcacheDelete (fun _ => some "memcache: connection failure") ["k"] = none := by
  decide

/-- C6. Claim (confirmed): with no error and not missed, `Bool()` on the
stored string "true" yields `(true, nil, false)`; on "maybe" it yields a
conversion error with the zero value; `Int()` on the stored float 3.7 yields
4 by round-to-nearest. -/
theorem C6_coercion_examples :
    Result.bool ⟨.vstring "true", none, false⟩ = (true, none, false) ∧
    Result.bool ⟨.vstring "maybe", none, false⟩
      = (false, some "invalid bool value (from string)", false) ∧
    Result.int ⟨.vfloat64 ((37 : ℚ)/10), none, false⟩ = (4, none, false) := by
  refine ⟨by decide, by decide, ?_⟩
  simp only [Result.int]
  norm_num [goMathRound]

/-- C5 counterexample: the claim says `Uint64` on a stored float returns the
round-to-nearest conversion, but the code performs the direct Go conversion
`uint64(value)`: on the stored float64 3.7 the accessor returns 3 while
round-to-nearest gives 4. -/
theorem C5_uint64_truncates_not_rounds :
    Result.uint64 ⟨.vfloat64 ((37 : ℚ)/10), none, false⟩ = (3, none, false) ∧
    goMathRound ((37 : ℚ)/10) = 4 := by
  constructor
  · simp only [Result.uint64]
    norm_num [uint64OfRat, ratTrunc]
    rfl
  · norm_num [goMathRound]

/-- C5 (amended): `Int`, `Int64` and the integer slice accessors convert
stored floats element-wise by `math.Round` — round to nearest, ties away
from zero, staying within one half of the argument — while the scalar
`Uint64` accessor returns the truncation toward zero of the stored float,
not its rounding. -/
theorem C5_amended_float_conversions :
    (∀ q : ℚ, Result.int ⟨.vfloat64 q, none, false⟩ = (goMathRound q, none, false)) ∧
    (∀ q : ℚ, Result.int ⟨.vfloat32 q, none, false⟩ = (goMathRound q, none, false)) ∧
    (∀ q : ℚ, Result.int64 ⟨.vfloat64 q, none, false⟩ = (goMathRound q, none, false)) ∧
    (∀ q : ℚ, Result.int64 ⟨.vfloat32 q, none, false⟩ = (goMathRound q, none, false)) ∧
    (∀ q : ℚ, Result.uint64 ⟨.vfloat64 q, none, false⟩ = (uint64OfRat q, none, false)) ∧
    (∀ q : ℚ, Result.uint64 ⟨.vfloat32 q, none, false⟩ = (uint64OfRat q, none, false)) ∧
    (∀ l : List ℚ, Result.intSlice ⟨.vfloat64Slice l, none, false⟩
      = (some (l.map goMathRound), none, false)) ∧
    (∀ l : List ℚ, Result.int64Slice ⟨.vfloat64Slice l, none, false⟩
      = (some (l.map goMathRound), none, false)) ∧
    (∀ l : List ℚ, Result.uint64Slice ⟨.vfloat64Slice l, none, false⟩
      = (some (l.map (fun q => (goMathRound q).toNat)), none, false)) ∧
    (∀ q : ℚ, |(goMathRound q : ℚ) - q| ≤ 1/2) ∧
    (∀ q : ℚ, |(ratTrunc q : ℚ)| ≤ |q| ∧ |q - (ratTrunc q : ℚ)| < 1) := by
  refine ⟨fun q => rfl, fun q => rfl, fun q => rfl, fun q => rfl, fun q => rfl, fun q => rfl,
    fun l => rfl, fun l => rfl, fun l => rfl, goMathRound_near, ratTrunc_toward_zero⟩

/-- A string has length zero exactly when it is empty. -/
theorem strLengthZero (s : String) : s.length = 0 ↔ s = "" := by
  cases s with
  | mk data =>
    cases data with
    | nil => simp
    | cons c cs => simp [String.length, String.ext_iff]

/-- The redis `Delete` loop reports the zero-length validation error whenever
some key is empty. -/
theorem redisPrefixKeys_err (p : String) (keys : List String) (h : "" ∈ keys) :
    (redisPrefixKeys p keys).1 = some "storage keys cannot be zero length (no keys deleted)" := by
  induction keys with
  | nil => simp at h
  | cons k ks ih =>
    by_cases hk : k.length = 0
    · simp [redisPrefixKeys, hk]
    · have hne : "" ∈ ks := by
        rcases List.mem_cons.mp h with h1 | h1
        · exact absurd ((strLengthZero k).mpr h1.symm) hk
        · exact h1
      simp [redisPrefixKeys, hk, ih hne]

/-- C10. Claim (confirmed): for the redis adapter with a non-empty
namespace, a `Delete` whose keys all pass validation rewrites the caller's
argument slice in place — every element is replaced by its
namespace-prefixed form (third component of the embedded result); the call
reports no error and removes exactly the prefixed keys from the engine. -/
theorem C10_redis_delete_mutates_key_slice (ns : String) (db : List (String × GoValue))
    (keys : List String) (_hns : ns ≠ "") (hne : keys ≠ []) (hkeys : ∀ k ∈ keys, k ≠ "") :
    redisDelete (redisNamespace ns) db keys
      = (none,
         db.filter (fun entry =>
           !((keys.map (fun k => redisNamespace ns ++ k)).contains entry.1)),
         keys.map (fun k => redisNamespace ns ++ k)) := by
  unfold redisDelete
  have hlen : ¬ keys.length ≤ 0 := by
    cases keys with
    | nil => exact absurd rfl hne
    | cons a l => simp
  simp [hlen, redisPrefixKeys_ok _ _ hkeys]

/-- Witness for C10 at a concrete input: namespace "n", engine holding
"n:a", caller slice ["a", "b"]. -/
theorem C10_witness :
    redisDelete (redisNamespace "n") [("n:a", GoValue.vstring "x")] ["a", "b"]
      = (none, [], ["n:a", "n:b"]) :=
  (C10_redis_delete_mutates_key_slice "n" [("n:a", GoValue.vstring "x")] ["a", "b"]
    (by decide) (by decide) (by decide)).trans (by decide)

/-- C8. Claim (confirmed): for every multi-key `Delete` (mysql, sqlite3,
redis, memcache) — an empty key list or any empty key yields a validation
error with the store untouched, and deleting only absent keys yields no
error. The memcache engine oracle in the last group returns a failure for
every key (as a missing key does), and the adapter still reports no
error. -/
theorem C8_multi_key_delete_validation :
    (∀ (tbl : List Row) ns,
      mysqlDelete tbl ns [] = (some "at least one key is required for Delete", tbl)) ∧
    (∀ (tbl : List Row) ns keys, "" ∈ keys →
      mysqlDelete tbl ns keys
        = (some "storage keys cannot be zero length (no keys deleted)", tbl)) ∧
    (∀ (tbl : List Row) ns keys, keys ≠ [] → (∀ k ∈ keys, k ≠ "") →
      (∀ r ∈ tbl, r.key ∉ keys) → mysqlDelete tbl ns keys = (none, tbl)) ∧
    (∀ (tbl : List Row) ns,
      sqliteDelete tbl ns [] = (some "at least one key is required for Delete", tbl)) ∧
    (∀ (tbl : List Row) ns keys, "" ∈ keys →
      sqliteDelete tbl ns keys
        = (some "storage keys cannot be zero length (no keys deleted)", tbl)) ∧
    (∀ (tbl : List Row) ns keys, keys ≠ [] → (∀ k ∈ keys, k ≠ "") →
      (∀ r ∈ tbl, r.key ∉ keys) → sqliteDelete tbl ns keys = (none, tbl)) ∧
    (∀ p (db : List (String × GoValue)),
      redisDelete p db [] = (some "at least one key is required for Delete", db, [])) ∧
    (∀ p (db : List (String × GoValue)) keys, "" ∈ keys →
      ∃ ks, redisDelete p db keys
        = (some "storage keys cannot be zero length (no keys deleted)", db, ks)) ∧
    (∀ p (db : List (String × GoValue)) keys, keys ≠ [] → (∀ k ∈ keys, k ≠ "") →
      (∀ e ∈ db, e.1 ∉ keys.map (fun k => p ++ k)) →
      redisDelete p db keys = (none, db, keys.map (fun k => p ++ k))) ∧
    (∀ engineDel, memcacheDelete engineDel [] = some "at least one key is required for Delete") ∧
    (∀ engineDel keys, "" ∈ keys →
      memcacheDelete engineDel keys
        = some "storage keys cannot be zero length (no keys deleted)") ∧
    (∀ keys, keys ≠ [] → (∀ k ∈ keys, k ≠ "") →
      memcacheDelete (fun _ => some "memcache: cache miss") keys = none) := by
  have hlenOf : ∀ (keys : List String), "" ∈ keys → ¬ keys.length ≤ 0 := by
    intro keys h
    cases keys with
    | nil => simp at h
    | cons a l => simp
  have hlenNe : ∀ (keys : List String), keys ≠ [] → ¬ keys.length ≤ 0 := by
    intro keys h
    cases keys with
    | nil => exact absurd rfl h
    | cons a l => simp
  have hanyT : ∀ (keys : List String), "" ∈ keys →
      keys.any (fun v => v.length = 0) = true := by
    intro keys h
    simp only [List.any_eq_true]
    exact ⟨"", h, by simp⟩
  have hanyF : ∀ (keys : List String), (∀ k ∈ keys, k ≠ "") →
      ¬ keys.any (fun v => v.length = 0) = true := by
    intro keys h hc
    simp only [List.any_eq_true] at hc
    rcases hc with ⟨k, hk, hk0⟩
    exact h k hk ((strLengthZero k).mp (by simpa using hk0))
  refine ⟨fun tbl ns => rfl, ?_, ?_, fun tbl ns => rfl, ?_, ?_, fun p db => rfl, ?_, ?_,
    fun engineDel => rfl, ?_, ?_⟩
  · intro tbl ns keys h
    simp [mysqlDelete, hlenOf keys h, hanyT keys h]
  · intro tbl ns keys hne hk habs
    simp only [mysqlDelete]
    rw [if_neg (hlenNe keys hne), if_neg (hanyF keys hk)]
    rw [List.filter_eq_self.mpr]
    intro r hr
    simp [habs r hr]
  · intro tbl ns keys h
    simp [sqliteDelete, hlenOf keys h, hanyT keys h]
  · intro tbl ns keys hne hk habs
    simp only [sqliteDelete]
    rw [if_neg (hlenNe keys hne), if_neg (hanyF keys hk)]
    rw [List.filter_eq_self.mpr]
    intro r hr
    simp [habs r hr]
  · intro p db keys h
    refine ⟨(redisPrefixKeys p keys).2, ?_⟩
    have h1 := redisPrefixKeys_err p keys h
    unfold redisDelete
    rw [if_neg (hlenOf keys h)]
    rcases hpk : redisPrefixKeys p keys with ⟨e, ks⟩
    rw [hpk] at h1
    simp at h1
    subst h1
    rfl
  · intro p db keys hne hk habs
    unfold redisDelete
    rw [if_neg (hlenNe keys hne), redisPrefixKeys_ok p keys hk]
    dsimp only
    rw [List.filter_eq_self.mpr]
    intro e he
    simp [habs e he]
  · intro engineDel keys h
    simp [memcacheDelete, hlenOf keys h, hanyT keys h]
  · intro keys hne hk
    simp [memcacheDelete, hlenNe keys hne, hanyF keys hk]

/-- Witness for C8 at concrete inputs: a one-row table, key lists with and
without an empty key, and an absent-key delete for each adapter family. -/
theorem C8_witness :
    mysqlDelete [⟨"k", "n", .vstring "v", 0⟩] "n" ["k", ""]
      = (some "storage keys cannot be zero length (no keys deleted)",
         [⟨"k", "n", .vstring "v", 0⟩]) ∧
    mysqlDelete [⟨"k", "n", .vstring "v", 0⟩] "n" ["absent"]
      = (none, [⟨"k", "n", .vstring "v", 0⟩]) ∧
    sqliteDelete [⟨"k", "n", .vstring "v", 0⟩] "n" ["absent"]
      = (none, [⟨"k", "n", .vstring "v", 0⟩]) ∧
    (∃ ks, redisDelete "n:" [("n:k", GoValue.vstring "v")] ["a", ""]
      = (some "storage keys cannot be zero length (no keys deleted)",
         [("n:k", GoValue.vstring "v")], ks)) ∧
    redisDelete "n:" [("n:k", GoValue.vstring "v")] ["absent"]
      = (none, [("n:k", GoValue.vstring "v")], ["n:absent"]) ∧
    memcacheDelete (fun _ => some "memcache: cache miss") ["absent"] = none := by
  refine ⟨C8_multi_key_delete_validation.2.1 _ "n" _ (by decide),
    C8_multi_key_delete_validation.2.2.1 _ "n" _ (by decide) (by decide) (by decide),
    C8_multi_key_delete_validation.2.2.2.2.2.1 _ "n" _ (by decide) (by decide) (by decide),
    C8_multi_key_delete_validation.2.2.2.2.2.2.2.1 "n:" _ _ (by decide),
    (C8_multi_key_delete_validation.2.2.2.2.2.2.2.2.1 "n:" _ _ (by decide) (by decide)
      (by decide)).trans (by decide),
    C8_multi_key_delete_validation.2.2.2.2.2.2.2.2.2.2.2 _ (by decide) (by decide)⟩

/-- Prefix-freeness is inherited by extensions: if neither of `p1`, `p2`
leads the other, then `p2` does not lead any extension of `p1`. -/
theorem strLeads_not_of_free (p1 p2 k : String)
    (h12 : strLeads p1.data p2.data = false) (h21 : strLeads p2.data p1.data = false) :
    strLeads p2.data (p1 ++ k).data = false := by
  cases hsl : strLeads p2.data (p1 ++ k).data with
  | false => rfl
  | true =>
    exfalso
    rw [String.data_append] at hsl
    have hone := strLeads_append p1.data k.data
    rcases strLeads_comparable hsl hone with h | h
    · rw [h] at h21; exact Bool.noConfusion h21
    · rw [h] at h12; exact Bool.noConfusion h12

/-- A redis `Get` through prefix `p1` is unaffected by removing every entry
of a prefix-free other namespace `p2`: it never reads those entries. -/
theorem redisGet_filter_other (p1 p2 : String)
    (h12 : strLeads p1.data p2.data = false) (h21 : strLeads p2.data p1.data = false)
    (db : List (String × GoValue)) (k : String) :
    redisGet p1 (db.filter (fun e => !(strLeads p2.data e.1.data))) k = redisGet p1 db k := by
  unfold redisGet
  rw [find_eq_of_imp db ?h]
  case h =>
    intro a ha
    rw [beq_iff_eq] at ha
    rw [ha, strLeads_not_of_free p1 p2 k h12 h21]
    rfl

/-- A redis `Reset` through a glob-literal prefix `p1` leaves every `Get`
through a prefix-free other namespace `p2` unchanged: the scan pattern
`p1 ++ "*"` matches exactly the keys extending `p1`, and none of `p2`'s keys
do. -/
theorem redisReset_preserves_other (p1 p2 : String)
    (hl1 : ∀ c ∈ p1.data, c ≠ '*' ∧ c ≠ '?' ∧ c ≠ '[' ∧ c ≠ '\\')
    (h12 : strLeads p1.data p2.data = false) (h21 : strLeads p2.data p1.data = false)
    (db : List (String × GoValue)) (k : String) :
    redisGet p2 (redisReset p1 db) k = redisGet p2 db k := by
  have hp1 : (p1 == "") = false := by
    rw [beq_eq_false_iff_ne]
    intro hp
    subst hp
    exact Bool.noConfusion h12
  unfold redisReset
  rw [hp1]
  show redisGet p2 (db.filter (fun e => !(globMatch (p1 ++ "*").data e.1.data))) k
      = redisGet p2 db k
  unfold redisGet
  rw [find_eq_of_imp db ?h]
  case h =>
    intro a ha
    rw [beq_iff_eq] at ha
    have hdata : (p1 ++ "*").data = p1.data ++ ['*'] := by
      rw [String.data_append]
    have hne : (p2 ++ k).data ≠ [] := by
      rw [String.data_append]
      cases hp2d : p2.data with
      | nil => rw [hp2d] at h21; simp [strLeads] at h21
      | cons x xs => simp
    rw [ha, hdata, globMatch_literal p1.data hl1 _ hne,
      strLeads_not_of_free p2 p1 k h21 h12]
    rfl

/-- The mysql point select reads only rows of its own namespace: restricting
the table to them changes nothing. -/
theorem mysqlGet_own_rows (tbl : List Row) (n1 k : String) (now : Int) :
    mysqlGet (tbl.filter (fun r => r.nsp == n1)) n1 k now = mysqlGet tbl n1 k now := by
  unfold mysqlGet
  rw [find_eq_of_imp tbl ?h]
  case h =>
    intro r hr
    rw [Bool.and_eq_true] at hr
    exact hr.2

/-- The postgres point select reads only rows of its own namespace. -/
theorem pgGet_own_rows (tbl : List Row) (n1 k : String) (now : Int) :
    pgGet (tbl.filter (fun r => r.nsp == n1)) n1 k now = pgGet tbl n1 k now := by
  unfold pgGet
  rw [find_eq_of_imp tbl ?h]
  case h =>
    intro r hr
    rw [Bool.and_eq_true] at hr
    exact hr.2

/-- The sqlite3 point select reads only rows of its own namespace. -/
theorem sqliteGet_own_rows (tbl : List Row) (n1 k : String) (now : Int) :
    sqliteGet (tbl.filter (fun r => r.nsp == n1)) n1 k now = sqliteGet tbl n1 k now := by
  unfold sqliteGet
  rw [find_eq_of_imp tbl ?h]
  case h =>
    intro r hr
    rw [Bool.and_eq_true] at hr
    exact hr.2

/-- C3 counterexample: the claim includes the empty namespace, but the redis
adapter with an empty namespace implements `Reset` as `FlushDB`: with
namespace "b" holding key "k" (third conjunct: its Get hits), the
empty-namespace adapter's Reset empties the whole engine (second conjunct),
after which namespace "b"'s Get misses (fourth conjunct) — its entry was
removed through the other adapter. -/
theorem C3_redis_empty_namespace_reset_clears_other :
    redisSet (redisNamespace "b") [] "k" (.vstring "v") = (none, [("b:k", .vstring "v")]) ∧
    redisReset (redisNamespace "") [("b:k", .vstring "v")] = [] ∧
    redisGet (redisNamespace "b") [("b:k", .vstring "v")] "k" = ⟨.vstring "v", none, false⟩ ∧
    redisGet (redisNamespace "b") [] "k" = ⟨.vnil, none, true⟩ := by
  decide

/-- C3 (amended): namespace isolation for `Get`, `Reset` and the GC sweep
holds for the relational adapters (mysql, postgres, sqlite3) for any two
distinct namespaces — a Get depends only on the rows of its own namespace,
and a Reset or GC sweep through one namespace preserves the rows of every
other namespace — and for the redis adapter provided the two normalized
namespace prefixes contain no glob metacharacter (`*`, `?`, `[`, `\`,
special in the `SCAN MATCH` pattern `Reset` uses) and are mutually
prefix-free (which excludes the empty namespace and aliasing prefixes such
as "a" vs "a:b"). -/
theorem C3_amended_namespace_isolation :
    (∀ (tbl : List Row) n1 n2 k (now : Int), n1 ≠ n2 →
      mysqlGet (tbl.filter (fun r => r.nsp == n1)) n1 k now = mysqlGet tbl n1 k now ∧
      (mysqlReset tbl n2).filter (fun r => r.nsp == n1) = tbl.filter (fun r => r.nsp == n1) ∧
      (mysqlGC tbl n2 now).filter (fun r => r.nsp == n1) = tbl.filter (fun r => r.nsp == n1)) ∧
    (∀ (tbl : List Row) n1 n2 k (now : Int), n1 ≠ n2 →
      pgGet (tbl.filter (fun r => r.nsp == n1)) n1 k now = pgGet tbl n1 k now ∧
      (pgReset tbl n2).filter (fun r => r.nsp == n1) = tbl.filter (fun r => r.nsp == n1) ∧
      (pgGC tbl n2 now).filter (fun r => r.nsp == n1) = tbl.filter (fun r => r.nsp == n1)) ∧
    (∀ (tbl : List Row) n1 n2 k (now : Int), n1 ≠ n2 →
      sqliteGet (tbl.filter (fun r => r.nsp == n1)) n1 k now = sqliteGet tbl n1 k now ∧
      (sqliteReset tbl n2).filter (fun r => r.nsp == n1) = tbl.filter (fun r => r.nsp == n1) ∧
      (sqliteGC tbl n2 now).filter (fun r => r.nsp == n1) = tbl.filter (fun r => r.nsp == n1)) ∧
    (∀ ns1 ns2,
      (∀ c ∈ (redisNamespace ns1).data, c ≠ '*' ∧ c ≠ '?' ∧ c ≠ '[' ∧ c ≠ '\\') →
      (∀ c ∈ (redisNamespace ns2).data, c ≠ '*' ∧ c ≠ '?' ∧ c ≠ '[' ∧ c ≠ '\\') →
      strLeads (redisNamespace ns1).data (redisNamespace ns2).data = false →
      strLeads (redisNamespace ns2).data (redisNamespace ns1).data = false →
      ∀ (db : List (String × GoValue)) k,
        redisGet (redisNamespace ns1)
          (db.filter (fun e => !(strLeads (redisNamespace ns2).data e.1.data))) k
          = redisGet (redisNamespace ns1) db k ∧
        redisGet (redisNamespace ns2)
          (db.filter (fun e => !(strLeads (redisNamespace ns1).data e.1.data))) k
          = redisGet (redisNamespace ns2) db k ∧
        redisGet (redisNamespace ns2) (redisReset (redisNamespace ns1) db) k
          = redisGet (redisNamespace ns2) db k ∧
        redisGet (redisNamespace ns1) (redisReset (redisNamespace ns2) db) k
          = redisGet (redisNamespace ns1) db k) := by
  have hside : ∀ (n1 n2 : String), n1 ≠ n2 → ∀ r : Row,
      (r.nsp == n1) = true → (!(r.nsp == n2)) = true := by
    intro n1 n2 h12 r hr
    rw [beq_iff_eq] at hr
    simp [hr, h12]
  have hsideGC : ∀ (n1 n2 : String) (now : Int), n1 ≠ n2 → ∀ r : Row,
      (r.nsp == n1) = true →
      (!(r.nsp == n2 && decide (r.expiry ≤ now) && r.expiry != 0)) = true := by
    intro n1 n2 now h12 r hr
    rw [beq_iff_eq] at hr
    simp [hr, h12]
  refine ⟨?_, ?_, ?_, ?_⟩
  · intro tbl n1 n2 k now h12
    exact ⟨mysqlGet_own_rows tbl n1 k now,
      filter_preserved tbl (hside n1 n2 h12),
      filter_preserved tbl (hsideGC n1 n2 now h12)⟩
  · intro tbl n1 n2 k now h12
    exact ⟨pgGet_own_rows tbl n1 k now,
      filter_preserved tbl (hside n1 n2 h12),
      filter_preserved tbl (hsideGC n1 n2 now h12)⟩
  · intro tbl n1 n2 k now h12
    exact ⟨sqliteGet_own_rows tbl n1 k now,
      filter_preserved tbl (hside n1 n2 h12),
      filter_preserved tbl (hsideGC n1 n2 now h12)⟩
  · intro ns1 ns2 hl1 hl2 h12 h21 db k
    exact ⟨redisGet_filter_other _ _ h12 h21 db k,
      redisGet_filter_other _ _ h21 h12 db k,
      redisReset_preserves_other _ _ hl1 h12 h21 db k,
      redisReset_preserves_other _ _ hl2 h21 h12 db k⟩

/-- Witness for C3 (amended) at concrete inputs: namespaces "a" and "b" on a
one-row table, and redis namespaces "x" and "y" on a one-entry engine. -/
theorem C3_amended_witness :
    ((mysqlReset [⟨"k", "a", GoValue.vstring "v", 0⟩] "b").filter (fun r => r.nsp == "a")
      = [⟨"k", "a", GoValue.vstring "v", 0⟩].filter (fun r => r.nsp == "a")) ∧
    (redisGet (redisNamespace "y")
        (redisReset (redisNamespace "x") [("y:k", GoValue.vstring "v")]) "k"
      = redisGet (redisNamespace "y") [("y:k", GoValue.vstring "v")] "k") :=
  ⟨(C3_amended_namespace_isolation.1 [⟨"k", "a", GoValue.vstring "v", 0⟩] "a" "b" "k" 0
      (by decide)).2.1,
   (C3_amended_namespace_isolation.2.2.2 "x" "y" (by decide) (by decide) (by decide) (by decide)
      [("y:k", GoValue.vstring "v")] "k").2.2.1⟩

/-- C7. Claim (confirmed for every conversion accessor of the coercion
engine — the scalar, UUID and slice accessors): (1) a `Result` carrying an
error propagates that error unchanged with the accessor's zero value and no
conversion attempted; (2) a missed `Result` yields the zero value with nil
error and `missed = true`; (3) with no error and no miss, whenever the
accessor reports an error — in particular on every value of an unsupported
source type — the returned value is the zero value and the error is a named
(non-empty) message. The accessors are total Lean functions, so no input
can fault. -/
theorem C7_accessor_error_and_miss_propagation :
    (∀ (v : GoValue) (m : Bool) (e : String),
      Result.bool ⟨v, some e, m⟩ = (false, some e, m) ∧
      Result.bytes ⟨v, some e, m⟩ = (none, some e, m) ∧
      Result.float32 ⟨v, some e, m⟩ = (0, some e, m) ∧
      Result.float64 ⟨v, some e, m⟩ = (0, some e, m) ∧
      Result.int ⟨v, some e, m⟩ = (0, some e, m) ∧
      Result.int64 ⟨v, some e, m⟩ = (0, some e, m) ∧
      Result.uint64 ⟨v, some e, m⟩ = (0, some e, m) ∧
      Result.string ⟨v, some e, m⟩ = ("", some e, m) ∧
      Result.uuid ⟨v, some e, m⟩ = (uuidNil, some e, m) ∧
      Result.boolSlice ⟨v, some e, m⟩ = (none, some e, m) ∧
      Result.float32Slice ⟨v, some e, m⟩ = (none, some e, m) ∧
      Result.float64Slice ⟨v, some e, m⟩ = (none, some e, m) ∧
      Result.intSlice ⟨v, some e, m⟩ = (none, some e, m) ∧
      Result.int64Slice ⟨v, some e, m⟩ = (none, some e, m) ∧
      Result.uint64Slice ⟨v, some e, m⟩ = (none, some e, m) ∧
      Result.stringSlice ⟨v, some e, m⟩ = (none, some e, m)) ∧
    (∀ v : GoValue,
      Result.bool ⟨v, none, true⟩ = (false, none, true) ∧
      Result.bytes ⟨v, none, true⟩ = (none, none, true) ∧
      Result.float32 ⟨v, none, true⟩ = (0, none, true) ∧
      Result.float64 ⟨v, none, true⟩ = (0, none, true) ∧
      Result.int ⟨v, none, true⟩ = (0, none, true) ∧
      Result.int64 ⟨v, none, true⟩ = (0, none, true) ∧
      Result.uint64 ⟨v, none, true⟩ = (0, none, true) ∧
      Result.string ⟨v, none, true⟩ = ("", none, true) ∧
      Result.uuid ⟨v, none, true⟩ = (uuidNil, none, true) ∧
      Result.boolSlice ⟨v, none, true⟩ = (none, none, true) ∧
      Result.float32Slice ⟨v, none, true⟩ = (none, none, true) ∧
      Result.float64Slice ⟨v, none, true⟩ = (none, none, true) ∧
      Result.intSlice ⟨v, none, true⟩ = (none, none, true) ∧
      Result.int64Slice ⟨v, none, true⟩ = (none, none, true) ∧
      Result.uint64Slice ⟨v, none, true⟩ = (none, none, true) ∧
      Result.stringSlice ⟨v, none, true⟩ = (none, none, true)) ∧
    (∀ (v : GoValue) (e : String),
      ((Result.bool ⟨v, none, false⟩).2.1 = some e →
        (Result.bool ⟨v, none, false⟩).1 = false ∧ e ≠ "") ∧
      ((Result.bytes ⟨v, none, false⟩).2.1 = some e →
        (Result.bytes ⟨v, none, false⟩).1 = none ∧ e ≠ "") ∧
      ((Result.float32 ⟨v, none, false⟩).2.1 = some e →
        (Result.float32 ⟨v, none, false⟩).1 = 0 ∧ e ≠ "") ∧
      ((Result.float64 ⟨v, none, false⟩).2.1 = some e →
        (Result.float64 ⟨v, none, false⟩).1 = 0 ∧ e ≠ "") ∧
      ((Result.int ⟨v, none, false⟩).2.1 = some e →
        (Result.int ⟨v, none, false⟩).1 = 0 ∧ e ≠ "") ∧
      ((Result.int64 ⟨v, none, false⟩).2.1 = some e →
        (Result.int64 ⟨v, none, false⟩).1 = 0 ∧ e ≠ "") ∧
      ((Result.uint64 ⟨v, none, false⟩).2.1 = some e →
        (Result.uint64 ⟨v, none, false⟩).1 = 0 ∧ e ≠ "") ∧
      ((Result.string ⟨v, none, false⟩).2.1 = some e →
        (Result.string ⟨v, none, false⟩).1 = "" ∧ e ≠ "") ∧
      ((Result.uuid ⟨v, none, false⟩).2.1 = some e →
        (Result.uuid ⟨v, none, false⟩).1 = uuidNil ∧ e ≠ "") ∧
      ((Result.boolSlice ⟨v, none, false⟩).2.1 = some e →
        (Result.boolSlice ⟨v, none, false⟩).1 = none ∧ e ≠ "") ∧
      ((Result.float32Slice ⟨v, none, false⟩).2.1 = some e →
        (Result.float32Slice ⟨v, none, false⟩).1 = none ∧ e ≠ "") ∧
      ((Result.float64Slice ⟨v, none, false⟩).2.1 = some e →
        (Result.float64Slice ⟨v, none, false⟩).1 = none ∧ e ≠ "") ∧
      ((Result.intSlice ⟨v, none, false⟩).2.1 = some e →
        (Result.intSlice ⟨v, none, false⟩).1 = none ∧ e ≠ "") ∧
      ((Result.int64Slice ⟨v, none, false⟩).2.1 = some e →
        (Result.int64Slice ⟨v, none, false⟩).1 = none ∧ e ≠ "") ∧
      ((Result.uint64Slice ⟨v, none, false⟩).2.1 = some e →
        (Result.uint64Slice ⟨v, none, false⟩).1 = none ∧ e ≠ "") ∧
      ((Result.stringSlice ⟨v, none, false⟩).2.1 = some e →
        (Result.stringSlice ⟨v, none, false⟩).1 = none ∧ e ≠ "")) := by
  refine ⟨fun v m e => ⟨rfl, rfl, rfl, rfl, rfl, rfl, rfl, rfl, rfl, rfl, rfl, rfl, rfl, rfl,
    rfl, rfl⟩,
    fun v => ⟨rfl, rfl, rfl, rfl, rfl, rfl, rfl, rfl, rfl, rfl, rfl, rfl, rfl, rfl, rfl, rfl⟩,
    ?_⟩
  intro v e
  refine ⟨?_, ?_, ?_, ?_, ?_, ?_, ?_, ?_, ?_, ?_, ?_, ?_, ?_, ?_, ?_, ?_⟩
  · cases v <;> simp [Result.bool] <;> (try split) <;> (try simp_all) <;>
      (try (rintro rfl; decide))
  · cases v <;> simp [Result.bytes] <;> (try split) <;> (try simp_all) <;>
      (try (rintro rfl; decide))
  · cases v <;> simp [Result.float32] <;> (try split) <;> (try simp_all) <;>
      (try (rintro rfl; decide))
  · cases v <;> simp [Result.float64] <;> (try split) <;> (try simp_all) <;>
      (try (rintro rfl; decide))
  · cases v <;> simp [Result.int] <;> (try split) <;> (try simp_all) <;>
      (try (rintro rfl; decide))
  · cases v <;> simp [Result.int64] <;> (try split) <;> (try simp_all) <;>
      (try (rintro rfl; decide))
  · cases v <;> simp [Result.uint64] <;> (try split) <;> (try simp_all) <;>
      (try (rintro rfl; decide))
  · cases v <;> simp [Result.string] <;> (try split) <;> (try simp_all) <;>
      (try (rintro rfl; decide))
  · cases v <;> simp [Result.uuid] <;> (try split) <;> (try simp_all) <;>
      (try (rintro rfl; decide))
  · cases v <;> simp [Result.boolSlice] <;> (try split) <;> (try simp_all) <;>
      (try (rintro rfl; decide))
  · cases v <;> simp [Result.float32Slice] <;> (try split) <;> (try simp_all) <;>
      (try (rintro rfl; decide))
  · cases v <;> simp [Result.float64Slice] <;> (try split) <;> (try simp_all) <;>
      (try (rintro rfl; decide))
  · cases v <;> simp [Result.intSlice] <;> (try split) <;> (try simp_all) <;>
      (try (rintro rfl; decide))
  · cases v <;> simp [Result.int64Slice] <;> (try split) <;> (try simp_all) <;>
      (try (rintro rfl; decide))
  · cases v <;> simp [Result.uint64Slice] <;> (try split) <;> (try simp_all) <;>
      (try (rintro rfl; decide))
  · cases v <;> simp [Result.stringSlice] <;> (try split) <;> (try simp_all) <;>
      (try (rintro rfl; decide))

/-- Witness for C7 at concrete inputs: an error Result through `Int`, a
missed Result through `String`, and the conversion-failure clause for `Bool`
on a value of an unsupported type. -/
theorem C7_witness :
    Result.int ⟨GoValue.vbool true, some "engine failure", true⟩
      = (0, some "engine failure", true) ∧
    Result.string ⟨GoValue.vint 5, none, true⟩ = ("", none, true) ∧
    ((Result.bool ⟨GoValue.vother, none, false⟩).1 = false ∧ "invalid bool value" ≠ "") :=
  ⟨(C7_accessor_error_and_miss_propagation.1 (GoValue.vbool true) true "engine failure").2.2.2.2.1,
   (C7_accessor_error_and_miss_propagation.2.1 (GoValue.vint 5)).2.2.2.2.2.2.2.1,
   (C7_accessor_error_and_miss_propagation.2.2 GoValue.vother "invalid bool value").1 (by decide)⟩

end GoFiberStorage
